import Mathlib

/-
Shallow embedding of the bindable-signal library (src/bindable.ts) and its
binding lifecycle, together with proofs of the specification claims.

The embedding mirrors the source:
  - `bindable` is the factory function. It first runs
    `assertNoDestroyRefOrInjectorProvidedWithManualCleanup`, then captures an
    injector only when no destroyRef was supplied and manualCleanup is not
    true, preferring the explicit injector option over the ambient injection
    context (`inject(Injector)` throws when there is no ambient context).
  - `bindTo` performs its guard checks (reactive context, already bound,
    signal source without injector, observable source without resolvable
    DestroyRef) before any effectful step; on success it installs either an
    effect-based binding (signal source) or an rxjs subscription through
    `observeOn(asapScheduler)` plus either `pipe()` (manual cleanup) or
    `takeUntilDestroyed(destroyRef)`, and only then sets `bound := true`.
    Failures are modelled by returning the unchanged cell, no installed
    binding and an error, matching the fact that every `throw` in the source
    happens before any mutation.
  - The runtime behaviour of an installed binding is modelled as a small
    event system: source emissions are scheduled (the asap scheduler defers
    them to the next turn), a `turn` event delivers everything pending in
    order, and a `destroy` event is the owning scope teardown, which stops
    delivery permanently for scope-tied bindings.
-/

namespace Bindable

/-- A scoped teardown handle (Angular DestroyRef), identified by a token. -/
structure DestroyRef where
  id : Nat
deriving DecidableEq

/-- An injector; `getDestroyRef` models `injector.get(DestroyRef)`, which in
the tests may be a mock returning no DestroyRef, hence the Option. -/
structure Injector where
  getDestroyRef : Option DestroyRef
deriving DecidableEq

/-- The options bag accepted by the `bindable` factory.  A missing
`manualCleanup` behaves exactly like `false` because the source only ever
compares it with `=== true`. -/
structure Options where
  destroyRef : Option DestroyRef
  injector : Option Injector
  manualCleanup : Bool
deriving DecidableEq

/-- The distinct error exits of the source, one per `throw` site plus the
`inject(Injector)` failure outside an injection context. -/
inductive BindError where
  | manualCleanupWithRefOrInjector
  | noInjectionContext
  | calledInReactiveContext
  | alreadyBound
  | signalWithoutInjector
  | noDestroyRefForObservable
deriving DecidableEq

/-- Construction-time assertion of the source: manual cleanup may not be
combined with a DestroyRef or an Injector option. -/
def assertNoDestroyRefOrInjectorProvidedWithManualCleanup
    (options : Options) : Except BindError Unit :=
  if options.manualCleanup then
    if options.destroyRef.isSome || options.injector.isSome then
      Except.error BindError.manualCleanupWithRefOrInjector
    else
      Except.ok ()
  else
    Except.ok ()

/-- The bindable signal cell: its current value, the one-shot `bound` flag,
the injector captured at construction time (the local `injector` variable of
the factory) and the options the factory closed over. -/
structure BindableSignal (T : Type) where
  value : T
  bound : Bool
  injector : Option Injector
  options : Options
deriving DecidableEq

/-- The `bindable` factory.  `ambient` is the ambient injection context; the
source reads it through `inject(Injector)`, which throws when none exists. -/
def bindable {T : Type} (initialValue : T) (options : Options)
    (ambient : Option Injector) : Except BindError (BindableSignal T) :=
  match assertNoDestroyRefOrInjectorProvidedWithManualCleanup options with
  | Except.error e => Except.error e
  | Except.ok _ =>
    if options.destroyRef.isNone && (options.manualCleanup != true) then
      match options.injector.orElse (fun _ => ambient) with
      | none => Except.error BindError.noInjectionContext
      | some inj => Except.ok ⟨initialValue, false, some inj, options⟩
    else
      Except.ok ⟨initialValue, false, none, options⟩

/-- An observable source; `syncEmits` are the values it emits synchronously
upon subscription (a BehaviorSubject emits its current value this way). -/
structure Obs (T : Type) where
  syncEmits : List T
deriving DecidableEq

/-- A signal source, read synchronously by the effect callback. -/
structure Sig (T : Type) where
  value : T
deriving DecidableEq

/-- The dynamic dispatch of `bindTo` on the source shape. -/
inductive Source (T : Type) where
  | obs (o : Obs T)
  | sig (g : Sig T)
deriving DecidableEq

/-- Runtime state of an observable binding.  `pending` holds values the asap
scheduler has accepted but not yet delivered; `scoped` records whether the
pipeline ends in `takeUntilDestroyed` (true) or `pipe()` (false, manual
cleanup); `writes` logs every source-derived write applied to the cell, in
order. -/
structure ObsRunState (T : Type) where
  value : T
  pending : List T
  destroyed : Bool
  scopedToRef : Bool
  writes : List T
deriving DecidableEq

/-- Runtime state of an effect binding to a signal source.  `dirty` records
that the effect is scheduled to run on the next turn; the effect is torn down
when the DestroyRef of its injector fires (`destroyed`). -/
structure SigRunState (T : Type) where
  cellValue : T
  srcValue : T
  dirty : Bool
  destroyed : Bool
  writes : List T
deriving DecidableEq

/-- The binding installed by a successful `bindTo`. -/
inductive Installed (T : Type) where
  | obsRun (r : ObsRunState T)
  | sigRun (r : SigRunState T)
deriving DecidableEq

/-- Synchronous read of the cell through an installed binding. -/
def Installed.read {T : Type} : Installed T → T
  | Installed.obsRun r => r.value
  | Installed.sigRun r => r.cellValue

/-- The log of source-derived writes applied so far. -/
def Installed.writesLog {T : Type} : Installed T → List T
  | Installed.obsRun r => r.writes
  | Installed.sigRun r => r.writes

/-- Result of a `bindTo` call: the cell afterwards, the installed binding if
any, and the raised error if any.  In the source every `throw` happens before
`bound = true` and before `effect`/`subscribe`, so an error leaves the cell
exactly as it was and installs nothing. -/
structure BindResult (T : Type) where
  cell : BindableSignal T
  installed : Option (Installed T)
  error : Option BindError
deriving DecidableEq

/-- The `bindTo` closure.  Guards in source order: reactive-context
assertion, the `bound` flag, then per-branch checks.  A signal source needs
the captured injector (the effect is scoped to it); an observable source
needs either manual cleanup (plain `pipe()`), or a DestroyRef from
`options.destroyRef ?? injector.get(DestroyRef)`.  On success the pipeline
only schedules: the cell keeps its value, synchronous emissions go to
`pending`, and the freshly created effect starts `dirty`. -/
def bindTo {T : Type} (s : BindableSignal T) (source : Source T)
    (inReactiveContext : Bool) : BindResult T :=
  if inReactiveContext then
    ⟨s, none, some BindError.calledInReactiveContext⟩
  else if s.bound then
    ⟨s, none, some BindError.alreadyBound⟩
  else
    match source with
    | Source.sig g =>
      match s.injector with
      | none => ⟨s, none, some BindError.signalWithoutInjector⟩
      | some _ =>
        ⟨⟨s.value, true, s.injector, s.options⟩,
          some (Installed.sigRun ⟨s.value, g.value, true, false, []⟩), none⟩
    | Source.obs o =>
      if s.options.manualCleanup then
        ⟨⟨s.value, true, s.injector, s.options⟩,
          some (Installed.obsRun ⟨s.value, o.syncEmits, false, false, []⟩), none⟩
      else
        match s.options.destroyRef.orElse
            (fun _ => s.injector.bind Injector.getDestroyRef) with
        | none => ⟨s, none, some BindError.noDestroyRefForObservable⟩
        | some _ =>
          ⟨⟨s.value, true, s.injector, s.options⟩,
            some (Installed.obsRun ⟨s.value, o.syncEmits, false, true, []⟩), none⟩

/-- Direct owner write through the cell itself (`WritableSignal.set`); it is
not guarded by the `bound` flag. -/
def setSignal {T : Type} (s : BindableSignal T) (v : T) : BindableSignal T :=
  ⟨v, s.bound, s.injector, s.options⟩

/-- Events observable by an installed observable binding: an upstream
emission, one scheduler turn, the owning scope teardown. -/
inductive ObsEvent (T : Type) where
  | next (v : T)
  | turn
  | destroy
deriving DecidableEq

/-- One step of the observable pipeline.  An emission is scheduled by the
asap scheduler unless the scoped pipeline has been unsubscribed by its
DestroyRef; a turn delivers every pending value to the cell in order (a
destroyed scoped pipeline drops them instead); teardown marks the scope
destroyed. -/
def obsStep {T : Type} (r : ObsRunState T) : ObsEvent T → ObsRunState T
  | ObsEvent.next v =>
    if r.scopedToRef && r.destroyed then r
    else ⟨r.value, r.pending ++ [v], r.destroyed, r.scopedToRef, r.writes⟩
  | ObsEvent.turn =>
    if r.scopedToRef && r.destroyed then
      ⟨r.value, [], r.destroyed, r.scopedToRef, r.writes⟩
    else
      ⟨r.pending.getLastD r.value, [], r.destroyed, r.scopedToRef,
        r.writes ++ r.pending⟩
  | ObsEvent.destroy => ⟨r.value, r.pending, true, r.scopedToRef, r.writes⟩

/-- Run an observable binding over a list of events. -/
def obsRunTrace {T : Type} (r : ObsRunState T) (evs : List (ObsEvent T)) :
    ObsRunState T :=
  evs.foldl obsStep r

/-- Events observable by an effect binding: the source signal is set, one
scheduler turn, the teardown of the DestroyRef scoping the effect. -/
inductive SigEvent (T : Type) where
  | srcSet (v : T)
  | turn
  | destroy
deriving DecidableEq

/-- One step of the effect binding.  Setting the source signal marks the
effect dirty (unless it has been destroyed, in which case the source still
changes but no run is scheduled); a turn runs a dirty live effect, writing
the current source value into the cell; teardown destroys the effect. -/
def sigStep {T : Type} (r : SigRunState T) : SigEvent T → SigRunState T
  | SigEvent.srcSet v =>
    if r.destroyed then ⟨r.cellValue, v, r.dirty, r.destroyed, r.writes⟩
    else ⟨r.cellValue, v, true, r.destroyed, r.writes⟩
  | SigEvent.turn =>
    if r.destroyed then r
    else if r.dirty then
      ⟨r.srcValue, r.srcValue, false, r.destroyed, r.writes ++ [r.srcValue]⟩
    else r
  | SigEvent.destroy => ⟨r.cellValue, r.srcValue, r.dirty, true, r.writes⟩

/-- Run an effect binding over a list of events. -/
def sigRunTrace {T : Type} (r : SigRunState T) (evs : List (SigEvent T)) :
    SigRunState T :=
  evs.foldl sigStep r

/-- The event sequence in which the source signal is set to each listed
value in turn, with a scheduler turn after every set — the rhythm of the
spec Scenario B (set the source, let the scheduler run, read the cell). -/
def sigCycleEvents {T : Type} : List T → List (SigEvent T)
  | [] => []
  | v :: rest => SigEvent.srcSet v :: SigEvent.turn :: sigCycleEvents rest

/-! ### Helper lemmas -/

/-- Shape of a successfully constructed cell: the value is the initial value,
the cell starts unbound, the options are stored, and the captured injector is
the explicit injector option or the ambient one exactly when no destroyRef
was supplied and manual cleanup is off. -/
theorem bindable_ok_inv {T : Type} {init : T} {opts : Options}
    {amb : Option Injector} {s : BindableSignal T}
    (h : bindable init opts amb = Except.ok s) :
    s.value = init ∧ s.bound = false ∧ s.options = opts ∧
      s.injector =
        (if opts.destroyRef.isNone && (opts.manualCleanup != true) then
          opts.injector.orElse (fun _ => amb)
        else none) := by
  unfold bindable at h
  split at h
  · exact absurd h (by simp)
  · split at h
    · rename_i hcond
      split at h
      · exact absurd h (by simp)
      · rename_i inj hor
        rw [← Except.ok.inj h]
        refine ⟨rfl, rfl, rfl, ?_⟩
        rw [if_pos hcond, hor]
    · rename_i hcond
      rw [← Except.ok.inj h]
      refine ⟨rfl, rfl, rfl, ?_⟩
      rw [if_neg hcond]

/-- Every `bindTo` call either fails, leaving the cell untouched and
installing nothing, or succeeds, setting `bound` and installing a binding
while keeping the value. -/
theorem bindTo_cases {T : Type} (s : BindableSignal T) (src : Source T)
    (rc : Bool) :
    (∃ e, bindTo s src rc = ⟨s, none, some e⟩) ∨
    (∃ inst, bindTo s src rc =
      ⟨⟨s.value, true, s.injector, s.options⟩, some inst, none⟩ ∧
      inst.read = s.value ∧ inst.writesLog = []) := by
  cases hrc : rc with
  | true =>
    exact Or.inl ⟨BindError.calledInReactiveContext, by simp [bindTo]⟩
  | false =>
    cases hb : s.bound with
    | true =>
      exact Or.inl ⟨BindError.alreadyBound, by simp [bindTo, hb]⟩
    | false =>
      cases src with
      | sig g =>
        cases hinj : s.injector with
        | none =>
          exact Or.inl ⟨BindError.signalWithoutInjector,
            by simp [bindTo, hb, hinj]⟩
        | some inj =>
          exact Or.inr ⟨Installed.sigRun ⟨s.value, g.value, true, false, []⟩,
            by simp [bindTo, hb, hinj], rfl, rfl⟩
      | obs o =>
        cases hm : s.options.manualCleanup with
        | true =>
          exact Or.inr ⟨Installed.obsRun ⟨s.value, o.syncEmits, false, false, []⟩,
            by simp [bindTo, hb, hm], rfl, rfl⟩
        | false =>
          cases hor : s.options.destroyRef.orElse
              (fun _ => s.injector.bind Injector.getDestroyRef) with
          | none =>
            exact Or.inl ⟨BindError.noDestroyRefForObservable,
              by simp [bindTo, hb, hm, hor]⟩
          | some ref =>
            exact Or.inr ⟨Installed.obsRun ⟨s.value, o.syncEmits, false, true, []⟩,
              by simp [bindTo, hb, hm, hor], rfl, rfl⟩

/-- A `bindTo` call on a cell whose `bound` flag is already set fails. -/
theorem bindTo_bound_fails {T : Type} {s : BindableSignal T}
    (hb : s.bound = true) (src : Source T) (rc : Bool) :
    (bindTo s src rc).error ≠ none := by
  cases hrc : rc with
  | true => simp [bindTo]
  | false => simp [bindTo, hb]


/-- A failing `bindTo` call returns the cell untouched and installs
nothing; every throw site of the source precedes any mutation. -/
theorem bindTo_error_unchanged {T : Type} {s : BindableSignal T}
    {src : Source T} {rc : Bool}
    (h : (bindTo s src rc).error ≠ none) :
    (bindTo s src rc).cell = s ∧ (bindTo s src rc).installed = none := by
  rcases bindTo_cases s src rc with ⟨e, he⟩ | ⟨inst, hi, _, _⟩
  · rw [he]; exact ⟨rfl, rfl⟩
  · rw [hi] at h; exact absurd rfl h

/-- A cell built with no destroyRef and manual cleanup off has captured an
injector. -/
theorem bindable_ok_injector_some {T : Type} {init : T}
    {iopt : Option Injector} {amb : Option Injector} {s : BindableSignal T}
    (h : bindable init ⟨none, iopt, false⟩ amb = Except.ok s) :
    ∃ inj, s.injector = some inj := by
  have hinv := (bindable_ok_inv h).2.2.2
  simp only [Option.isNone_none, Bool.true_and] at hinv
  cases hor : iopt.orElse (fun _ => amb) with
  | none =>
    exfalso
    unfold bindable at h
    simp [assertNoDestroyRefOrInjectorProvidedWithManualCleanup, hor] at h
  | some inj =>
    refine ⟨inj, ?_⟩
    rw [hinv]
    simpa using hor

/-- The run state installed by a successful observable bind: pre-bind value,
the synchronous emissions pending, not destroyed, empty write log, and
scope-tied exactly when manual cleanup is off. -/
theorem bindTo_obs_installed {T : Type} {s : BindableSignal T} {o : Obs T}
    {rc : Bool} {r0 : ObsRunState T}
    (hinst : (bindTo s (Source.obs o) rc).installed =
      some (Installed.obsRun r0)) :
    r0.value = s.value ∧ r0.pending = o.syncEmits ∧ r0.destroyed = false ∧
      r0.writes = [] ∧ r0.scopedToRef = !s.options.manualCleanup := by
  cases hrc : rc with
  | true => rw [hrc] at hinst; simp [bindTo] at hinst
  | false =>
    rw [hrc] at hinst
    cases hb : s.bound with
    | true => simp [bindTo, hb] at hinst
    | false =>
      cases hm : s.options.manualCleanup with
      | true =>
        simp only [bindTo, hb, hm, Bool.false_eq_true, if_false, if_true] at hinst
        rw [← Option.some.inj hinst |> Installed.obsRun.inj]
        simp
      | false =>
        cases hor : s.options.destroyRef.orElse
            (fun _ => s.injector.bind Injector.getDestroyRef) with
        | none =>
          simp [bindTo, hb, hm, hor] at hinst
        | some ref =>
          simp only [bindTo, hb, hm, hor, Bool.false_eq_true, if_false] at hinst
          rw [← Option.some.inj hinst |> Installed.obsRun.inj]
          simp

/-- The run state installed by a successful signal bind: pre-bind cell
value, current source value, dirty effect, live, empty write log. -/
theorem bindTo_sig_installed {T : Type} {s : BindableSignal T} {g : Sig T}
    {rc : Bool} {q0 : SigRunState T}
    (hinst : (bindTo s (Source.sig g) rc).installed =
      some (Installed.sigRun q0)) :
    q0 = ⟨s.value, g.value, true, false, []⟩ := by
  cases hrc : rc with
  | true => rw [hrc] at hinst; simp [bindTo] at hinst
  | false =>
    rw [hrc] at hinst
    cases hb : s.bound with
    | true => simp [bindTo, hb] at hinst
    | false =>
      cases hinj : s.injector with
      | none => simp [bindTo, hb, hinj] at hinst
      | some inj =>
        simp only [bindTo, hb, hinj, Bool.false_eq_true, if_false] at hinst
        exact (Option.some.inj hinst |> Installed.sigRun.inj).symm

/-- Scheduling emissions onto a live pipeline only appends them to the
pending list; the value, write log and flags are unchanged. -/
theorem obsRunTrace_nexts {T : Type} (emits : List T) (r : ObsRunState T)
    (h : (r.scopedToRef && r.destroyed) = false) :
    obsRunTrace r (List.map ObsEvent.next emits) =
      ⟨r.value, r.pending ++ emits, r.destroyed, r.scopedToRef, r.writes⟩ := by
  induction emits generalizing r with
  | nil => simp [obsRunTrace]
  | cons e es ih =>
    have hstep : obsStep r (ObsEvent.next e) =
        ⟨r.value, r.pending ++ [e], r.destroyed, r.scopedToRef, r.writes⟩ := by
      simp [obsStep, h]
    have hh : obsRunTrace r (List.map ObsEvent.next (e :: es)) =
        obsRunTrace (obsStep r (ObsEvent.next e)) (List.map ObsEvent.next es) :=
      rfl
    rw [hh, hstep,
      ih ⟨r.value, r.pending ++ [e], r.destroyed, r.scopedToRef, r.writes⟩ h]
    simp

/-- A scope-tied pipeline whose scope has been destroyed never changes the
cell value again and stays destroyed. -/
theorem obsRunTrace_destroyed {T : Type} (evs : List (ObsEvent T))
    (r : ObsRunState T) (hs : r.scopedToRef = true) (hd : r.destroyed = true) :
    (obsRunTrace r evs).value = r.value ∧
      (obsRunTrace r evs).scopedToRef = true ∧
      (obsRunTrace r evs).destroyed = true := by
  induction evs generalizing r with
  | nil => exact ⟨rfl, hs, hd⟩
  | cons e es ih =>
    have hh : obsRunTrace r (e :: es) = obsRunTrace (obsStep r e) es := rfl
    rw [hh]
    cases e with
    | next v =>
      have hstep : obsStep r (ObsEvent.next v) = r := by
        simp [obsStep, hs, hd]
      rw [hstep]
      exact ih r hs hd
    | turn =>
      have hstep : obsStep r ObsEvent.turn =
          ⟨r.value, [], r.destroyed, r.scopedToRef, r.writes⟩ := by
        simp [obsStep, hs, hd]
      rw [hstep]
      exact ih _ hs hd
    | destroy =>
      have hstep : obsStep r ObsEvent.destroy =
          ⟨r.value, r.pending, true, r.scopedToRef, r.writes⟩ := rfl
      rw [hstep]
      exact ih _ hs rfl

/-- A destroyed effect never writes into the cell again and stays
destroyed. -/
theorem sigRunTrace_destroyed {T : Type} (evs : List (SigEvent T))
    (q : SigRunState T) (hd : q.destroyed = true) :
    (sigRunTrace q evs).cellValue = q.cellValue ∧
      (sigRunTrace q evs).destroyed = true := by
  induction evs generalizing q with
  | nil => exact ⟨rfl, hd⟩
  | cons e es ih =>
    have hh : sigRunTrace q (e :: es) = sigRunTrace (sigStep q e) es := rfl
    rw [hh]
    cases e with
    | srcSet v =>
      have hstep : sigStep q (SigEvent.srcSet v) =
          ⟨q.cellValue, v, q.dirty, q.destroyed, q.writes⟩ := by
        simp [sigStep, hd]
      rw [hstep]
      exact ih _ hd
    | turn =>
      have hstep : sigStep q SigEvent.turn = q := by simp [sigStep, hd]
      rw [hstep]
      exact ih q hd
    | destroy =>
      have hstep : sigStep q SigEvent.destroy =
          ⟨q.cellValue, q.srcValue, q.dirty, true, q.writes⟩ := rfl
      rw [hstep]
      exact ih _ rfl

/-- On a live effect, setting the source and letting the scheduler run, once
per listed value, writes exactly those values into the cell in order: the
write log extends by precisely the list and the cell ends at its last value
(or stays put when the list is empty); the effect stays live. -/
theorem sigRunTrace_cycles {T : Type} (vs : List T) (q : SigRunState T)
    (hq : q.destroyed = false) :
    (sigRunTrace q (sigCycleEvents vs)).cellValue = vs.getLastD q.cellValue ∧
      (sigRunTrace q (sigCycleEvents vs)).writes = q.writes ++ vs ∧
      (sigRunTrace q (sigCycleEvents vs)).destroyed = false := by
  induction vs generalizing q with
  | nil => exact ⟨rfl, (List.append_nil q.writes).symm, hq⟩
  | cons v rest ih =>
    have h1 : sigStep q (SigEvent.srcSet v) =
        ⟨q.cellValue, v, true, q.destroyed, q.writes⟩ := by
      simp [sigStep, hq]
    have h2 : sigStep (⟨q.cellValue, v, true, q.destroyed, q.writes⟩ :
        SigRunState T) SigEvent.turn =
        ⟨v, v, false, q.destroyed, q.writes ++ [v]⟩ := by
      simp [sigStep, hq]
    have hh : sigRunTrace q (sigCycleEvents (v :: rest)) =
        sigRunTrace (sigStep (sigStep q (SigEvent.srcSet v)) SigEvent.turn)
          (sigCycleEvents rest) := rfl
    rw [hh, h1, h2]
    obtain ⟨ha, hb, hc⟩ :=
      ih ⟨v, v, false, q.destroyed, q.writes ++ [v]⟩ hq
    refine ⟨?_, ?_, hc⟩
    · rw [ha, List.getLastD_cons]
    · rw [hb]
      simp


/-! ### Claim theorems -/

/-- Claim C7: constructing with manual cleanup together with a destroyRef,
with an injector, or with both, fails with the dedicated construction error
before any cell is produced; with manual cleanup and neither option,
construction succeeds. -/
theorem manual_cleanup_construction_contradiction {T : Type} (init : T)
    (r : DestroyRef) (i : Injector) (amb : Option Injector) :
    bindable init ⟨some r, none, true⟩ amb =
      Except.error BindError.manualCleanupWithRefOrInjector ∧
    bindable init ⟨none, some i, true⟩ amb =
      Except.error BindError.manualCleanupWithRefOrInjector ∧
    bindable init ⟨some r, some i, true⟩ amb =
      Except.error BindError.manualCleanupWithRefOrInjector ∧
    bindable init ⟨none, none, true⟩ amb =
      Except.ok ⟨init, false, none, ⟨none, none, true⟩⟩ :=
  ⟨rfl, rfl, rfl, rfl⟩

/-- Claim C8: with no ambient injection context, construction with no
explicit destroyRef, no injector and manualCleanup false fails with the
injection-context error, while supplying any one of the three options makes
construction succeed without an ambient context. -/
theorem no_ambient_context_construction {T : Type} (init : T)
    (r : DestroyRef) (i : Injector) :
    bindable init ⟨none, none, false⟩ none =
      Except.error BindError.noInjectionContext ∧
    bindable init ⟨some r, none, false⟩ none =
      Except.ok ⟨init, false, none, ⟨some r, none, false⟩⟩ ∧
    bindable init ⟨none, some i, false⟩ none =
      Except.ok ⟨init, false, some i, ⟨none, some i, false⟩⟩ ∧
    bindable init ⟨none, none, true⟩ none =
      Except.ok ⟨init, false, none, ⟨none, none, true⟩⟩ :=
  ⟨rfl, rfl, rfl, rfl⟩

/-- Claim C2: the bound flag of a freshly constructed cell is false; a
successful bindTo turns it true; it stays true under direct writes; and any
later bindTo call on the bound cell fails, whatever the source type or
cleanup strategy. -/
theorem single_bind_and_bound_monotonic {T : Type} (init : T)
    (opts : Options) (amb : Option Injector) (s0 s : BindableSignal T)
    (src src2 : Source T) (rc rc2 : Bool) (v : T)
    (hmk : bindable init opts amb = Except.ok s0)
    (hok : (bindTo s src rc).error = none) :
    s0.bound = false ∧
    (bindTo s src rc).cell.bound = true ∧
    (setSignal (bindTo s src rc).cell v).bound = true ∧
    (bindTo (bindTo s src rc).cell src2 rc2).error ≠ none := by
  rcases bindTo_cases s src rc with ⟨e, he⟩ | ⟨inst, hi, _, _⟩
  · rw [he] at hok
    exact absurd hok (by simp)
  · refine ⟨(bindable_ok_inv hmk).2.1, ?_, ?_, ?_⟩
    · rw [hi]
    · rw [hi]; rfl
    · rw [hi]
      exact bindTo_bound_fails rfl src2 rc2

/-- Claim C2 witness at a concrete manual-cleanup cell bound to an
observable source. -/
theorem single_bind_and_bound_monotonic_witness :
    (⟨0, false, none, ⟨none, none, true⟩⟩ : BindableSignal Nat).bound = false ∧
    (bindTo (⟨0, false, none, ⟨none, none, true⟩⟩ : BindableSignal Nat)
      (Source.obs ⟨[]⟩) false).cell.bound = true ∧
    (setSignal (bindTo (⟨0, false, none, ⟨none, none, true⟩⟩ :
      BindableSignal Nat) (Source.obs ⟨[]⟩) false).cell 7).bound = true ∧
    (bindTo (bindTo (⟨0, false, none, ⟨none, none, true⟩⟩ :
      BindableSignal Nat) (Source.obs ⟨[]⟩) false).cell
      (Source.sig ⟨1⟩) false).error ≠ none :=
  single_bind_and_bound_monotonic 0 ⟨none, none, true⟩ none
    ⟨0, false, none, ⟨none, none, true⟩⟩
    ⟨0, false, none, ⟨none, none, true⟩⟩
    (Source.obs ⟨[]⟩) (Source.sig ⟨1⟩) false false 7 rfl rfl

/-- Claim C9: a failing bindTo call is atomic: it leaves the cell exactly as
it was (bound flag and value untouched) and installs no subscription or
reaction. -/
theorem failed_bind_changes_nothing {T : Type} (s : BindableSignal T)
    (src : Source T) (rc : Bool)
    (h : (bindTo s src rc).error ≠ none) :
    (bindTo s src rc).cell = s ∧ (bindTo s src rc).installed = none :=
  bindTo_error_unchanged h

/-- Claim C9 witness at a concrete already-bound cell. -/
theorem failed_bind_changes_nothing_witness :
    (bindTo (⟨0, true, none, ⟨none, none, true⟩⟩ : BindableSignal Nat)
      (Source.obs ⟨[]⟩) false).cell = ⟨0, true, none, ⟨none, none, true⟩⟩ ∧
    (bindTo (⟨0, true, none, ⟨none, none, true⟩⟩ : BindableSignal Nat)
      (Source.obs ⟨[]⟩) false).installed = none :=
  failed_bind_changes_nothing ⟨0, true, none, ⟨none, none, true⟩⟩
    (Source.obs ⟨[]⟩) false (by decide)

/-- Claim C10: a successful bindTo returns the very cell it was called on,
differing only in the now-set bound flag, and the direct write surface is
unrestricted afterwards: the cell setter still updates the value. -/
theorem bind_returns_same_cell_set_still_updates {T : Type}
    (s : BindableSignal T) (src : Source T) (rc : Bool) (v : T)
    (h : (bindTo s src rc).error = none) :
    (bindTo s src rc).cell = ⟨s.value, true, s.injector, s.options⟩ ∧
    (setSignal (bindTo s src rc).cell v).value = v ∧
    (setSignal (bindTo s src rc).cell v).bound = true := by
  rcases bindTo_cases s src rc with ⟨e, he⟩ | ⟨inst, hi, _, _⟩
  · rw [he] at h
    exact absurd h (by simp)
  · rw [hi]
    exact ⟨rfl, rfl, rfl⟩

/-- Claim C10 witness at a concrete manual-cleanup cell. -/
theorem bind_returns_same_cell_set_still_updates_witness :
    (bindTo (⟨0, false, none, ⟨none, none, true⟩⟩ : BindableSignal Nat)
      (Source.obs ⟨[]⟩) false).cell = ⟨0, true, none, ⟨none, none, true⟩⟩ ∧
    (setSignal (bindTo (⟨0, false, none, ⟨none, none, true⟩⟩ :
      BindableSignal Nat) (Source.obs ⟨[]⟩) false).cell 7).value = 7 ∧
    (setSignal (bindTo (⟨0, false, none, ⟨none, none, true⟩⟩ :
      BindableSignal Nat) (Source.obs ⟨[]⟩) false).cell 7).bound = true :=
  bind_returns_same_cell_set_still_updates
    ⟨0, false, none, ⟨none, none, true⟩⟩ (Source.obs ⟨[]⟩) false 7 rfl


/-- Claim C6: a cell constructed with manual cleanup holds its initial
value, and bindTo with a signal source always fails on it: no subscription
or reaction is installed and the cell is left exactly as it was. -/
theorem manual_cleanup_rejects_signal_source {T : Type} (init : T)
    (opts : Options) (amb : Option Injector) (s : BindableSignal T)
    (g : Sig T) (rc : Bool)
    (hm : opts.manualCleanup = true)
    (hmk : bindable init opts amb = Except.ok s) :
    s.value = init ∧
    (bindTo s (Source.sig g) rc).error ≠ none ∧
    (bindTo s (Source.sig g) rc).installed = none ∧
    (bindTo s (Source.sig g) rc).cell = s := by
  obtain ⟨hv, hb, ho, hinj⟩ := bindable_ok_inv hmk
  rw [hm] at hinj
  simp only [bne_self_eq_false, Bool.and_false, Bool.false_eq_true,
    if_false] at hinj
  have herr : (bindTo s (Source.sig g) rc).error ≠ none := by
    cases rc with
    | true => simp [bindTo]
    | false => simp [bindTo, hb, hinj]
  obtain ⟨hc, hni⟩ := bindTo_error_unchanged herr
  exact ⟨hv, herr, hni, hc⟩

/-- Claim C6 witness at a concrete manual-cleanup cell and signal source. -/
theorem manual_cleanup_rejects_signal_source_witness :
    (⟨0, false, none, ⟨none, none, true⟩⟩ : BindableSignal Nat).value = 0 ∧
    (bindTo (⟨0, false, none, ⟨none, none, true⟩⟩ : BindableSignal Nat)
      (Source.sig ⟨1⟩) false).error ≠ none ∧
    (bindTo (⟨0, false, none, ⟨none, none, true⟩⟩ : BindableSignal Nat)
      (Source.sig ⟨1⟩) false).installed = none ∧
    (bindTo (⟨0, false, none, ⟨none, none, true⟩⟩ : BindableSignal Nat)
      (Source.sig ⟨1⟩) false).cell = ⟨0, false, none, ⟨none, none, true⟩⟩ :=
  manual_cleanup_rejects_signal_source 0 ⟨none, none, true⟩ none
    ⟨0, false, none, ⟨none, none, true⟩⟩ ⟨1⟩ false rfl rfl

/-- Claim C1 counterexample: a cell constructed with a direct destroyRef and
manual cleanup off is created successfully, yet bindTo with a signal source
fails with the missing-injector error and installs nothing — contradicting
the claim that such a bind does not fail. -/
theorem destroyRef_signal_bind_fails_cex :
    bindable (0 : Nat) ⟨some ⟨0⟩, none, false⟩ none =
      Except.ok ⟨0, false, none, ⟨some ⟨0⟩, none, false⟩⟩ ∧
    (bindTo (⟨0, false, none, ⟨some ⟨0⟩, none, false⟩⟩ : BindableSignal Nat)
      (Source.sig ⟨1⟩) false).error = some BindError.signalWithoutInjector ∧
    (bindTo (⟨0, false, none, ⟨some ⟨0⟩, none, false⟩⟩ : BindableSignal Nat)
      (Source.sig ⟨1⟩) false).installed = none :=
  ⟨rfl, rfl, rfl⟩

/-- Claim C1 (amended): binding to a signal source requires the injector
captured at construction, not merely an owning-scope handle.  A cell built
with a direct destroyRef (manual cleanup off) captures no injector, so its
bindTo with a signal source always fails with the missing-injector error; a
cell built with no destroyRef and manual cleanup off has captured an
injector and its bindTo with a signal source succeeds; in general, on an
unbound cell outside a reactive context, bindTo with a signal source
succeeds exactly when an injector was captured. -/
theorem signal_bind_needs_captured_injector {T : Type} (init : T)
    (r : DestroyRef) (iopt : Option Injector) (amb amb2 : Option Injector)
    (s s2 s3 : BindableSignal T) (g : Sig T)
    (hmk : bindable init ⟨some r, iopt, false⟩ amb = Except.ok s)
    (hmk2 : bindable init ⟨none, iopt, false⟩ amb2 = Except.ok s2)
    (hnb : s3.bound = false) :
    (bindTo s (Source.sig g) false).error =
      some BindError.signalWithoutInjector ∧
    (bindTo s2 (Source.sig g) false).error = none ∧
    ((bindTo s3 (Source.sig g) false).error = none ↔ s3.injector ≠ none) := by
  obtain ⟨hv, hb, ho, hinj⟩ := bindable_ok_inv hmk
  simp only [Option.isNone_some, Bool.false_and, Bool.false_eq_true,
    if_false] at hinj
  obtain ⟨inj, hinj2⟩ := bindable_ok_injector_some hmk2
  have hb2 := (bindable_ok_inv hmk2).2.1
  refine ⟨?_, ?_, ?_, ?_⟩
  · simp [bindTo, hb, hinj]
  · simp [bindTo, hb2, hinj2]
  · intro he
    cases hinj3 : s3.injector with
    | none => simp [bindTo, hnb, hinj3] at he
    | some inj3 => simp
  · intro hn
    cases hinj3 : s3.injector with
    | none => exact absurd hinj3 hn
    | some inj3 => simp [bindTo, hnb, hinj3]

/-- Claim C1 amended-theorem witness at concrete cells: one with a direct
destroyRef, one with an ambient injector. -/
theorem signal_bind_needs_captured_injector_witness :
    (bindTo (⟨0, false, none, ⟨some ⟨0⟩, none, false⟩⟩ : BindableSignal Nat)
      (Source.sig ⟨1⟩) false).error =
      some BindError.signalWithoutInjector ∧
    (bindTo (⟨0, false, some ⟨none⟩, ⟨none, none, false⟩⟩ : BindableSignal Nat)
      (Source.sig ⟨1⟩) false).error = none ∧
    ((bindTo (⟨0, false, none, ⟨some ⟨0⟩, none, false⟩⟩ : BindableSignal Nat)
      (Source.sig ⟨1⟩) false).error = none ↔
      (⟨0, false, none, ⟨some ⟨0⟩, none, false⟩⟩ :
        BindableSignal Nat).injector ≠ none) :=
  signal_bind_needs_captured_injector 0 ⟨0⟩ none none (some ⟨none⟩)
    ⟨0, false, none, ⟨some ⟨0⟩, none, false⟩⟩
    ⟨0, false, some ⟨none⟩, ⟨none, none, false⟩⟩
    ⟨0, false, none, ⟨some ⟨0⟩, none, false⟩⟩ ⟨1⟩ rfl rfl rfl

/-- Claim C3: right after a successful bindTo the installed binding still
reads the pre-bind value and has written nothing, even when the source
emitted synchronously during subscription; and no event other than a
scheduler turn (an emission, a teardown) ever changes the read value. -/
theorem bind_retains_initial_value {T : Type} (s : BindableSignal T)
    (src : Source T) (rc : Bool) (inst : Installed T)
    (r : ObsRunState T) (q : SigRunState T) (v w : T)
    (hinst : (bindTo s src rc).installed = some inst) :
    inst.read = s.value ∧ inst.writesLog = [] ∧
    (obsStep r (ObsEvent.next v)).value = r.value ∧
    (obsStep r ObsEvent.destroy).value = r.value ∧
    (sigStep q (SigEvent.srcSet w)).cellValue = q.cellValue ∧
    (sigStep q SigEvent.destroy).cellValue = q.cellValue := by
  rcases bindTo_cases s src rc with ⟨e, he⟩ | ⟨inst0, hi, hr, hw⟩
  · rw [he] at hinst
    exact absurd hinst (by simp)
  · rw [hi] at hinst
    obtain rfl : inst0 = inst := Option.some.inj hinst
    refine ⟨hr, hw, ?_, rfl, ?_, rfl⟩
    · cases hcond : (r.scopedToRef && r.destroyed) <;> simp [obsStep, hcond]
    · cases hq : q.destroyed <;> simp [sigStep, hq]

/-- Claim C3 witness: a BehaviorSubject-like source emitting synchronously
at subscription leaves the read value at the initial value. -/
theorem bind_retains_initial_value_witness :
    (Installed.obsRun (⟨0, [5], false, false, []⟩ : ObsRunState Nat)).read =
      0 ∧
    (Installed.obsRun (⟨0, [5], false, false, []⟩ :
      ObsRunState Nat)).writesLog = [] ∧
    (obsStep (⟨1, [2], false, true, []⟩ : ObsRunState Nat)
      (ObsEvent.next 3)).value = 1 ∧
    (obsStep (⟨1, [2], false, true, []⟩ : ObsRunState Nat)
      ObsEvent.destroy).value = 1 ∧
    (sigStep (⟨1, 2, false, false, []⟩ : SigRunState Nat)
      (SigEvent.srcSet 4)).cellValue = 1 ∧
    (sigStep (⟨1, 2, false, false, []⟩ : SigRunState Nat)
      SigEvent.destroy).cellValue = 1 :=
  bind_retains_initial_value ⟨0, false, none, ⟨none, none, true⟩⟩
    (Source.obs ⟨[5]⟩) false (Installed.obsRun ⟨0, [5], false, false, []⟩)
    ⟨1, [2], false, true, []⟩ ⟨1, 2, false, false, []⟩ 3 4 rfl

/-- Claim C4: one scheduler turn after a successful bind the cell value is
the most recent value the source emitted (observable and signal case), and
subsequent emissions are applied in exactly their emission order for both
source shapes: on a live pipeline the write log extends by precisely the
pending values followed by the new emissions and the value becomes the last
of them; on the effect binding, each later source set followed by a turn
writes that value into the cell, and a whole sequence of set-then-turn
cycles after the first turn extends the write log by exactly that sequence
with the cell ending at its last value. -/
theorem eventual_propagation_in_order {T : Type} (s s2 : BindableSignal T)
    (o : Obs T) (g : Sig T) (rc rc2 : Bool) (r0 : ObsRunState T)
    (q0 : SigRunState T) (emits : List T) (r : ObsRunState T)
    (q : SigRunState T) (w : T) (vs : List T)
    (hinst : (bindTo s (Source.obs o) rc).installed =
      some (Installed.obsRun r0))
    (hinst2 : (bindTo s2 (Source.sig g) rc2).installed =
      some (Installed.sigRun q0))
    (hlive : (r.scopedToRef && r.destroyed) = false)
    (hq : q.destroyed = false) :
    (obsStep r0 ObsEvent.turn).value = o.syncEmits.getLastD s.value ∧
    (obsStep r0 ObsEvent.turn).writes = o.syncEmits ∧
    (sigStep q0 SigEvent.turn).cellValue = g.value ∧
    (obsRunTrace r (List.map ObsEvent.next emits ++ [ObsEvent.turn])).value =
      (r.pending ++ emits).getLastD r.value ∧
    (obsRunTrace r (List.map ObsEvent.next emits ++ [ObsEvent.turn])).writes =
      r.writes ++ r.pending ++ emits ∧
    (sigRunTrace q [SigEvent.srcSet w, SigEvent.turn]).cellValue = w ∧
    (sigRunTrace (sigStep q0 SigEvent.turn) (sigCycleEvents vs)).cellValue =
      vs.getLastD g.value ∧
    (sigRunTrace (sigStep q0 SigEvent.turn) (sigCycleEvents vs)).writes =
      g.value :: vs := by
  obtain ⟨h1, h2, h3, h4, h5⟩ := bindTo_obs_installed hinst
  obtain rfl := bindTo_sig_installed hinst2
  have hr0 : (r0.scopedToRef && r0.destroyed) = false := by
    rw [h3]
    simp
  have htr : obsRunTrace r (List.map ObsEvent.next emits ++ [ObsEvent.turn]) =
      obsStep (obsRunTrace r (List.map ObsEvent.next emits)) ObsEvent.turn := by
    simp [obsRunTrace, List.foldl_append]
  have hq1 : sigStep (⟨s2.value, g.value, true, false, []⟩ : SigRunState T)
      SigEvent.turn = ⟨g.value, g.value, false, false, [g.value]⟩ := by
    simp [sigStep]
  refine ⟨?_, ?_, ?_, ?_, ?_, ?_, ?_, ?_⟩
  · simp [obsStep, hr0, h1, h2]
  · simp [obsStep, hr0, h2, h4]
  · simp [sigStep]
  · rw [htr, obsRunTrace_nexts emits r hlive]
    simp [obsStep, hlive]
  · rw [htr, obsRunTrace_nexts emits r hlive]
    simp [obsStep, hlive, List.append_assoc]
  · simpa using (sigRunTrace_cycles [w] q hq).1
  · rw [hq1]
    exact (sigRunTrace_cycles vs ⟨g.value, g.value, false, false, [g.value]⟩
      rfl).1
  · rw [hq1]
    exact (sigRunTrace_cycles vs ⟨g.value, g.value, false, false, [g.value]⟩
      rfl).2.1

/-- Claim C4 witness: a manual bind to an observable that already emitted 5
then 7 reads 7 after one turn with write log [5, 7]; an injector-scoped bind
to a signal holding 9 reads 9 after one turn; two further observable
emissions are applied in order; a later source-signal set followed by a turn
updates a live effect cell to the set value; and two set-then-turn cycles
after the first turn leave the signal-bound cell at 11 with write log
[9, 10, 11]. -/
theorem eventual_propagation_in_order_witness :
    (obsStep (⟨0, [5, 7], false, false, []⟩ : ObsRunState Nat)
      ObsEvent.turn).value = ([5, 7] : List Nat).getLastD 0 ∧
    (obsStep (⟨0, [5, 7], false, false, []⟩ : ObsRunState Nat)
      ObsEvent.turn).writes = [5, 7] ∧
    (sigStep (⟨0, 9, true, false, []⟩ : SigRunState Nat)
      SigEvent.turn).cellValue = 9 ∧
    (obsRunTrace (⟨0, [], false, false, []⟩ : ObsRunState Nat)
      (List.map ObsEvent.next [1, 2] ++ [ObsEvent.turn])).value =
      (([] : List Nat) ++ [1, 2]).getLastD 0 ∧
    (obsRunTrace (⟨0, [], false, false, []⟩ : ObsRunState Nat)
      (List.map ObsEvent.next [1, 2] ++ [ObsEvent.turn])).writes =
      ([] : List Nat) ++ ([] : List Nat) ++ [1, 2] ∧
    (sigRunTrace (⟨3, 4, false, false, []⟩ : SigRunState Nat)
      [SigEvent.srcSet 8, SigEvent.turn]).cellValue = 8 ∧
    (sigRunTrace (sigStep (⟨0, 9, true, false, []⟩ : SigRunState Nat)
      SigEvent.turn) (sigCycleEvents [10, 11])).cellValue =
      ([10, 11] : List Nat).getLastD 9 ∧
    (sigRunTrace (sigStep (⟨0, 9, true, false, []⟩ : SigRunState Nat)
      SigEvent.turn) (sigCycleEvents [10, 11])).writes = [9, 10, 11] :=
  eventual_propagation_in_order
    ⟨0, false, none, ⟨none, none, true⟩⟩
    ⟨0, false, some ⟨none⟩, ⟨none, none, false⟩⟩
    ⟨[5, 7]⟩ ⟨9⟩ false false ⟨0, [5, 7], false, false, []⟩
    ⟨0, 9, true, false, []⟩ [1, 2] ⟨0, [], false, false, []⟩
    ⟨3, 4, false, false, []⟩ 8 [10, 11] rfl rfl rfl rfl

/-- Claim C5: once the owning scope of a scope-tied binding is destroyed, no
sequence of later source emissions and scheduler turns ever changes the read
value — for the observable pipeline and for the effect binding alike — and a
non-manual observable bind does install a scope-tied pipeline. -/
theorem teardown_stops_propagation {T : Type} (r : ObsRunState T)
    (evs : List (ObsEvent T)) (q : SigRunState T) (evs2 : List (SigEvent T))
    (s : BindableSignal T) (o : Obs T) (r0 : ObsRunState T)
    (hs : r.scopedToRef = true)
    (hm : s.options.manualCleanup = false)
    (hinst : (bindTo s (Source.obs o) false).installed =
      some (Installed.obsRun r0)) :
    (obsRunTrace (obsStep r ObsEvent.destroy) evs).value = r.value ∧
    (sigRunTrace (sigStep q SigEvent.destroy) evs2).cellValue = q.cellValue ∧
    r0.scopedToRef = true := by
  refine ⟨?_, ?_, ?_⟩
  · exact (obsRunTrace_destroyed evs (obsStep r ObsEvent.destroy) hs rfl).1
  · exact (sigRunTrace_destroyed evs2 (sigStep q SigEvent.destroy) rfl).1
  · have h5 := (bindTo_obs_installed hinst).2.2.2.2
    rw [h5, hm]
    rfl

/-- Claim C5 witness: after a destroy, an emission and a turn leave both the
pipeline value and the effect-bound cell value unchanged; a concrete
injector-resolved bind is scope-tied. -/
theorem teardown_stops_propagation_witness :
    (obsRunTrace (obsStep (⟨3, [4], false, true, []⟩ : ObsRunState Nat)
      ObsEvent.destroy) [ObsEvent.next 9, ObsEvent.turn]).value = 3 ∧
    (sigRunTrace (sigStep (⟨3, 4, true, false, []⟩ : SigRunState Nat)
      SigEvent.destroy) [SigEvent.srcSet 9, SigEvent.turn]).cellValue = 3 ∧
    (⟨0, [], false, true, []⟩ : ObsRunState Nat).scopedToRef = true :=
  teardown_stops_propagation ⟨3, [4], false, true, []⟩
    [ObsEvent.next 9, ObsEvent.turn] ⟨3, 4, true, false, []⟩
    [SigEvent.srcSet 9, SigEvent.turn]
    ⟨0, false, some ⟨some ⟨0⟩⟩, ⟨none, none, false⟩⟩ ⟨[]⟩
    ⟨0, [], false, true, []⟩ rfl rfl rfl

end Bindable
